import Mathlib

/-!
Verification of the core audio engine of the photon music player.

Modelling conventions: `f32`/`f64` sample values and factors are embedded as
`ℚ` (exact arithmetic in place of floating point, which preserves every
algebraic identity the claims state); `usize` is embedded as `ℕ`, where Lean's
truncated subtraction agrees with the source wherever the source's
subtractions do not underflow (every claim below stays inside that domain);
Rust slices and vectors of samples are embedded as `List ℚ`, indexed with
`List.getD` whose default is only reachable where the source itself would be
out of bounds; Rust `Option` is mirrored by `Option`; a Rust function that can
panic is embedded with an `Option` result, `none` marking the panic.
-/

/-- Reading a dropped list at position `m` reads the original at `n + m`. -/
theorem getD_drop_eq {α : Type} (n : Nat) (l : List α) (m : Nat) (d : α) :
    (l.drop n).getD m d = l.getD (n + m) d := by
  induction n generalizing l with
  | zero => simp
  | succ k ih =>
    cases l with
    | nil => simp [List.getD]
    | cons a t =>
      rw [List.drop_succ_cons, ih t, Nat.succ_add, List.getD_cons_succ]

/-- Reading an append inside the left part reads the left part. -/
theorem getD_append_eq {α : Type} (l l' : List α) (n : Nat) (d : α)
    (h : n < l.length) : (l ++ l').getD n d = l.getD n d := by
  induction l generalizing n with
  | nil => simp at h
  | cons a t ih =>
    cases n with
    | zero => rfl
    | succ m =>
      simp only [List.cons_append, List.getD_cons_succ]
      exact ih m (by simpa using h)

/-- Embedding of `RetriggerParameters` (src/core/effect/retrigger.rs). -/
structure RetriggerParameters where
  /-- The starting index of the repetition. -/
  repeat_start : Nat
  /-- The ending index of the repetition. -/
  repeat_end : Nat
  /-- The threshold for fading between repetitions. -/
  fade_threshold : Nat
  /-- How much of the repeated samples is mixed with the original audio. -/
  mix_factor : ℚ
deriving DecidableEq

/-- Embedding of `RetriggerParameters::new`.  The source computes
`(repeat_duration * 44100.0) as usize` on `f64`: the cast truncates toward
zero and saturates at zero for negative values, which is `(⌊·⌋).toNat` here;
`clamp(0.0, 1.0)` is `min (max · 0) 1`. -/
def RetriggerParameters.new (repeat_start : Nat) (repeat_duration : ℚ)
    (mix_factor : ℚ) : RetriggerParameters :=
  let repeat_samples : Nat := (⌊repeat_duration * 44100⌋).toNat
  { repeat_start := repeat_start
    repeat_end := repeat_start + repeat_samples
    fade_threshold := min (repeat_samples / 4) 441
    mix_factor := min (max mix_factor 0) 1 }

/-- Embedding of `RetriggerParameters::fade_factor`, with the source's locals
`fade`, `after = repeat_end - fade` and `until = repeat_start + fade` inlined
(`until` is computed where it is used; the subtractions are the source's
`usize` subtractions). -/
def RetriggerParameters.fade_factor (p : RetriggerParameters) (index : Nat) : ℚ :=
  if index < p.repeat_start + p.fade_threshold then
    ((p.fade_threshold - (p.repeat_start + p.fade_threshold - index) + 1 : Nat) : ℚ)
      / (p.fade_threshold : ℚ)
  else if index > p.repeat_end - p.fade_threshold then
    ((p.fade_threshold - (index - (p.repeat_end - p.fade_threshold)) + 1 : Nat) : ℚ)
      / (p.fade_threshold : ℚ)
  else 1

/-- Embedding of the `Retrigger` state (samples, optional parameters,
optional current index). -/
structure Retrigger where
  /-- The stream of audio samples. -/
  samples : List ℚ
  /-- The parameters for the effect. -/
  parameters : Option RetriggerParameters
  /-- The current index of the effect. -/
  index : Option Nat
deriving DecidableEq

/-- Embedding of `Retrigger::new`. -/
def Retrigger.new (samples : List ℚ) : Retrigger :=
  { samples := samples, parameters := none, index := none }

/-- Embedding of `Retrigger::initialize` (turning the effect on). -/
def Retrigger.activate (rt : Retrigger) (parameters : RetriggerParameters) :
    Retrigger :=
  { rt with parameters := some parameters, index := some parameters.repeat_start }

/-- Embedding of `Retrigger::deinitialize` (turning the effect off). -/
def Retrigger.deactivate (rt : Retrigger) : Retrigger :=
  { rt with parameters := none, index := none }

/-- The wrap test at the top of the retrigger loop body:
`if current_index >= parameters.repeat_end { current_index = parameters.repeat_start }`. -/
def Retrigger.wrapIndex (p : RetriggerParameters) (c : Nat) : Nat :=
  if c ≥ p.repeat_end then p.repeat_start else c

/-- The loop body of `Retrigger::process`, one recursive call per rendered
frame.  `dryIdx` is the source's `track_index + index` (the loop variable is
folded into the running sum), `c` the source's `current_index`, `n` the number
of frames left to render.  Returns the rendered samples and the final
`current_index`. -/
def Retrigger.processFrames (samples : List ℚ) (p : RetriggerParameters) :
    Nat → Nat → Nat → List ℚ × Nat
  | _, c, 0 => ([], c)
  | dryIdx, c, n + 1 =>
    let c := Retrigger.wrapIndex p c
    let fade_factor := p.fade_factor c
    let retr : ℚ × ℚ :=
      if c * 2 ≥ samples.length then (0, 0)
      else (fade_factor * samples.getD (c * 2) 0 * p.mix_factor,
            fade_factor * samples.getD (c * 2 + 1) 0 * p.mix_factor)
    let orig : ℚ × ℚ :=
      if dryIdx * 2 ≥ samples.length then (0, 0)
      else (samples.getD (dryIdx * 2) 0 * (1 - p.mix_factor),
            samples.getD (dryIdx * 2 + 1) 0 * (1 - p.mix_factor))
    let rest := Retrigger.processFrames samples p (dryIdx + 1) (c + 1) n
    ((retr.1 + orig.1) :: (retr.2 + orig.2) :: rest.1, rest.2)

/-- Embedding of `Retrigger::process`: a no-op unless both `parameters` and
`index` are present; otherwise renders `buffer.len() / 2` frames (any odd
trailing sample position of `buffer` is untouched) and stores the final
cursor. -/
def Retrigger.process (rt : Retrigger) (track_index : Nat) (buffer : List ℚ) :
    List ℚ × Retrigger :=
  match rt.parameters, rt.index with
  | some p, some c =>
    let n := buffer.length / 2
    let r := Retrigger.processFrames rt.samples p track_index c n
    (r.1 ++ buffer.drop (2 * n), { rt with index := some r.2 })
  | _, _ => (buffer, rt)

/-- The effective repeat cursor used for the i-th rendered frame: the stored
cursor is wrapped before use and incremented after use. -/
def Retrigger.cursorAt (p : RetriggerParameters) (c : Nat) : Nat → Nat
  | 0 => Retrigger.wrapIndex p c
  | i + 1 => Retrigger.wrapIndex p (Retrigger.cursorAt p c i + 1)

/-- Embedding of `TranceGateParameters` (src/core/effect/trance_gate.rs). -/
structure TranceGateParameters where
  /-- The start position of the gate. -/
  gate_start : Nat
  /-- The end position of the gate. -/
  gate_end : Nat
  /-- The threshold for fading between repetitions. -/
  fade_threshold : Nat
  /-- How much of the gate is mixed with the original audio source. -/
  mix_factor : ℚ
deriving DecidableEq

/-- Embedding of `TranceGateParameters::new`.  The source computes
`60.0 / beats_per_minute * 2.0 / gate_factor` on `f32` then truncates
`gate_duration * 44100.0` to `usize`; division by zero `f32` (infinite or NaN
results) is outside the claims' domain and is `0` in `ℚ`. -/
def TranceGateParameters.new (gate_start : Nat) (gate_factor : ℚ)
    (beats_per_minute : ℚ) (mix_factor : ℚ) : TranceGateParameters :=
  let gate_samples : Nat := (⌊(60 / beats_per_minute * 2 / gate_factor) * 44100⌋).toNat
  { gate_start := gate_start
    gate_end := gate_start + gate_samples
    fade_threshold := min (gate_samples / 2) 441
    mix_factor := min (max mix_factor 0) 1 }

/-- Embedding of `TranceGateParameters::fade_factor` (same shape as the
retrigger's, over the gate bounds). -/
def TranceGateParameters.fade_factor (p : TranceGateParameters) (index : Nat) : ℚ :=
  if index < p.gate_start + p.fade_threshold then
    ((p.fade_threshold - (p.gate_start + p.fade_threshold - index) + 1 : Nat) : ℚ)
      / (p.fade_threshold : ℚ)
  else if index > p.gate_end - p.fade_threshold then
    ((p.fade_threshold - (index - (p.gate_end - p.fade_threshold)) + 1 : Nat) : ℚ)
      / (p.fade_threshold : ℚ)
  else 1

/-- Embedding of the `TranceGate` state. -/
structure TranceGate where
  /-- The stream of audio samples. -/
  samples : List ℚ
  /-- The parameters for the effect. -/
  parameters : Option TranceGateParameters
  /-- The current index of the gate. -/
  index : Option Nat
  /-- Determines if the gate is closed. -/
  silent : Bool
deriving DecidableEq

/-- Embedding of `TranceGate::new`. -/
def TranceGate.new (samples : List ℚ) : TranceGate :=
  { samples := samples, parameters := none, index := none, silent := false }

/-- Embedding of `TranceGate::initialize` (note: `silent` is left as-is). -/
def TranceGate.activate (tg : TranceGate) (parameters : TranceGateParameters) :
    TranceGate :=
  { tg with parameters := some parameters, index := some parameters.gate_start }

/-- Embedding of `TranceGate::deinitialize` (resets `silent`). -/
def TranceGate.deactivate (tg : TranceGate) : TranceGate :=
  { tg with parameters := none, index := none, silent := false }

/-- The wrap-and-toggle test at the top of the trance gate loop body:
`if current_index >= parameters.gate_end { self.silent = !self.silent;
current_index = parameters.gate_start; }`. -/
def TranceGate.wrapState (p : TranceGateParameters) (c : Nat) (s : Bool) :
    Nat × Bool :=
  if c ≥ p.gate_end then (p.gate_start, !s) else (c, s)

/-- The loop body of `TranceGate::process`, one recursive call per frame.
`dryIdx` is the source's `track_index + index`; `buffer` is what remains of
the callback buffer (each frame reads its own two already-written samples);
returns the rendered samples, the final index, and the final `silent` flag. -/
def TranceGate.processFrames (samples : List ℚ) (p : TranceGateParameters) :
    Nat → Nat → Bool → Nat → List ℚ → List ℚ × Nat × Bool
  | _, c, s, 0, _ => ([], c, s)
  | dryIdx, c, s, n + 1, buffer =>
    let cs := TranceGate.wrapState p c s
    let c := cs.1
    let s := cs.2
    let orig : ℚ × ℚ :=
      if dryIdx * 2 ≥ samples.length then (0, 0)
      else (samples.getD (dryIdx * 2) 0 * (1 - p.mix_factor),
            samples.getD (dryIdx * 2 + 1) 0 * (1 - p.mix_factor))
    let out : ℚ × ℚ :=
      if s then orig
      else
        let fade_factor := p.fade_factor c
        (buffer.getD 0 0 * fade_factor * p.mix_factor + orig.1,
         buffer.getD 1 0 * fade_factor * p.mix_factor + orig.2)
    let rest := TranceGate.processFrames samples p (dryIdx + 1) (c + 1) s n (buffer.drop 2)
    (out.1 :: out.2 :: rest.1, rest.2)

/-- Embedding of `TranceGate::process`: a no-op unless both `parameters` and
`index` are present; otherwise transforms `buffer.len() / 2` frames in place
(any odd trailing sample position is untouched) and stores the final index
and `silent` flag. -/
def TranceGate.process (tg : TranceGate) (track_index : Nat) (buffer : List ℚ) :
    List ℚ × TranceGate :=
  match tg.parameters, tg.index with
  | some p, some c =>
    let n := buffer.length / 2
    let r := TranceGate.processFrames tg.samples p track_index c tg.silent n buffer
    (r.1 ++ buffer.drop (2 * n), { tg with index := some r.2.1, silent := r.2.2 })
  | _, _ => (buffer, tg)

/-- The effective (index, silent) pair used for the i-th frame of the gate:
wrapped-and-toggled before use, index incremented after use. -/
def TranceGate.stateAt (p : TranceGateParameters) (c : Nat) (s : Bool) :
    Nat → Nat × Bool
  | 0 => TranceGate.wrapState p c s
  | i + 1 =>
    let q := TranceGate.stateAt p c s i
    TranceGate.wrapState p (q.1 + 1) q.2

/-- Embedding of `MessageIntoEngine` (src/core/engine.rs). -/
inductive MessageIntoEngine where
  | Play : MessageIntoEngine
  | Pause : MessageIntoEngine
  | RetriggerOn (repeat_duration : ℚ) (mix_factor : ℚ) : MessageIntoEngine
  | RetriggerOff : MessageIntoEngine
  | TranceGateOn (gate_factor : ℚ) (beats_per_minute : ℚ) (mix_factor : ℚ) :
      MessageIntoEngine
  | TranceGateOff : MessageIntoEngine
deriving DecidableEq

/-- Embedding of the `Engine` state.  The message channels are embedded by
passing `process` the list of messages popped during its drain loop (the
`rtrb` consumer yields them in FIFO order); `MessageFromEngine` has no
variants and no message is ever produced, so the outgoing producer is
omitted. -/
structure Engine where
  /-- The stream of samples. -/
  samples : List ℚ
  /-- The sample index (the canonical playhead, in frames). -/
  index : Nat
  /-- Determines if playback is active. -/
  playing : Bool
  /-- Total number of samples processed (never updated by `process`). -/
  total : Nat
  /-- The retrigger audio effect. -/
  retrigger : Retrigger
  /-- The trance gate audio effect. -/
  trance_gate : TranceGate
deriving DecidableEq

/-- Embedding of `Engine::new`. -/
def Engine.new (samples : List ℚ) : Engine :=
  { samples := samples
    index := 0
    playing := false
    total := 0
    retrigger := Retrigger.new samples
    trance_gate := TranceGate.new samples }

/-- One arm of the message-drain `match` in `Engine::process`. -/
def Engine.applyMessage (e : Engine) (m : MessageIntoEngine) : Engine :=
  match m with
  | .Play => { e with playing := true }
  | .Pause => { e with playing := false }
  | .RetriggerOn repeat_duration mix_factor =>
    { e with retrigger :=
        e.retrigger.activate (RetriggerParameters.new e.index repeat_duration mix_factor) }
  | .RetriggerOff => { e with retrigger := e.retrigger.deactivate }
  | .TranceGateOn gate_factor beats_per_minute mix_factor =>
    let p := TranceGateParameters.new e.index gate_factor beats_per_minute mix_factor
    { e with trance_gate := e.trance_gate.activate p }
  | .TranceGateOff => { e with trance_gate := e.trance_gate.deactivate }

/-- The drain loop `while let Ok(message) = self.into_engine.pop()` over the
messages available during this callback. -/
def Engine.drain (e : Engine) (msgs : List MessageIntoEngine) : Engine :=
  msgs.foldl Engine.applyMessage e

/-- Embedding of `quiet`: fill a buffer with silence. -/
def quiet (buffer : List ℚ) : List ℚ :=
  buffer.map fun _ => 0

/-- The dry-playback loop of `Engine::process`: starting at frame `idx`,
write `n` frames from the sample store, zeroing any frame whose left channel
position reaches the end of the store. -/
def Engine.dryFrames (samples : List ℚ) : Nat → Nat → List ℚ
  | _, 0 => []
  | idx, n + 1 =>
    let pair : ℚ × ℚ :=
      if idx * 2 ≥ samples.length then (0, 0)
      else (samples.getD (idx * 2) 0, samples.getD (idx * 2 + 1) 0)
    pair.1 :: pair.2 :: Engine.dryFrames samples (idx + 1) n

/-- Embedding of `Engine::process`: drain the message queue, then either fill
the buffer with silence (paused) or write the dry track, advance the
playhead, and run the retrigger then the trance gate. -/
def Engine.process (e : Engine) (msgs : List MessageIntoEngine)
    (buffer : List ℚ) : List ℚ × Engine :=
  let e := e.drain msgs
  if e.playing = false then (quiet buffer, e)
  else
    let track_index := e.index
    let n := buffer.length / 2
    let dry := Engine.dryFrames e.samples track_index n ++ buffer.drop (2 * n)
    let e := { e with index := e.index + n }
    let r1 := e.retrigger.process track_index dry
    let r2 := e.trance_gate.process track_index r1.1
    (r2.1, { e with retrigger := r1.2, trance_gate := r2.2 })

/-- Embedding of the playback state of the older output path
(src/core/playback.rs). -/
structure PlaybackState where
  /-- The number of samples already processed. -/
  start_offset : Nat
  /-- Whether or not we should send samples. -/
  playing : Bool
deriving DecidableEq

/-- Embedding of `PlaybackEvent`. -/
inductive PlaybackEvent where
  | Play : PlaybackEvent
  | Pause : PlaybackEvent
  | Restart : PlaybackEvent
deriving DecidableEq

/-- One arm of the event drain in the output stream callback. -/
def applyPlaybackEvent (s : PlaybackState) (e : PlaybackEvent) : PlaybackState :=
  match e with
  | .Play => { s with playing := true }
  | .Pause => { s with playing := false }
  | .Restart => { s with start_offset := 0 }

/-- Embedding of `SamplesInMemory::copy_from_onto` (src/core/audio.rs).  The
source explicitly panics when `start_offset >= samples.len()`; the panic is
`none` here.  `f32::MID` is `0.0`. -/
def copy_from_onto (samples : List ℚ) (start_offset : Nat) (buffer : List ℚ) :
    Option (List ℚ) :=
  if start_offset ≥ samples.length then none
  else
    let end_offset := start_offset + buffer.length
    if end_offset > samples.length then
      let overflow := end_offset - samples.length
      let end_offset := end_offset - overflow
      let total_len := end_offset - start_offset
      some (((samples.drop start_offset).take total_len)
        ++ List.replicate (buffer.length - total_len) 0)
    else some ((samples.drop start_offset).take buffer.length)

/-- Embedding of one invocation of the output stream callback built in
`Closure::new` (src/core/playback.rs): drain the playback events, then, when
playing, copy from the current start offset and advance it by the buffer
length; when paused, fill the buffer with `f32::MID` (0.0).  The unguarded
call to `copy_from_onto` propagates its panic (`none`). -/
def playbackCallback (samples : List ℚ) (s : PlaybackState)
    (events : List PlaybackEvent) (buffer : List ℚ) :
    Option (List ℚ × PlaybackState) :=
  let s := events.foldl applyPlaybackEvent s
  if s.playing then
    match copy_from_onto samples s.start_offset buffer with
    | some out => some (out, { s with start_offset := s.start_offset + buffer.length })
    | none => none
  else some (buffer.map (fun _ => 0), s)

/-- Modelled from the spec: the per-frame gate factor that claim C2 ascribes
to `TranceGate::process` (a triangular envelope over a counter modulo the
gate length, descending before the midpoint and ascending after, with noise
floor `t * (1 - 0.1) + 0.1`, then mixed as `g = t * mix_factor +
(1 - mix_factor)`).  This definition follows the claim's words; the source's
`TranceGate::process` is embedded above for comparison. -/
def tranceGateClaimFactor (gate_length : Nat) (counter : Nat) (mix_factor : ℚ) : ℚ :=
  let gate_midpoint := gate_length / 2
  let t : ℚ :=
    if counter < gate_midpoint then
      ((gate_midpoint - counter : Nat) : ℚ) / (gate_midpoint : ℚ)
    else
      ((counter - gate_midpoint : Nat) : ℚ) / (gate_midpoint : ℚ)
  let tf := t * (1 - 1 / 10) + 1 / 10
  tf * mix_factor + (1 - mix_factor)

/-- Unfolding the effective cursor one step: the cursor sequence starting at
`c` is, after its first frame, the sequence starting at `wrapIndex c + 1`. -/
theorem Retrigger.cursorAt_succ (p : RetriggerParameters) (c : Nat) (i : Nat) :
    Retrigger.cursorAt p c (i + 1)
      = Retrigger.cursorAt p (Retrigger.wrapIndex p c + 1) i := by
  induction i with
  | zero => rfl
  | succ i ih =>
    show Retrigger.wrapIndex p (Retrigger.cursorAt p c (i + 1) + 1)
        = Retrigger.wrapIndex p (Retrigger.cursorAt p (Retrigger.wrapIndex p c + 1) i + 1)
    rw [ih]

/-- Case split for the successor of a value taken modulo `L`. -/
theorem succ_mod_cases (a L : Nat) (h : 0 < L) :
    (a + 1) % L = if a % L + 1 = L then 0 else a % L + 1 := by
  have hsplit : a + 1 = L * (a / L) + (a % L + 1) := by
    have := Nat.div_add_mod a L
    omega
  rw [hsplit, Nat.mul_add_mod]
  by_cases hcase : a % L + 1 = L
  · rw [if_pos hcase, hcase, Nat.mod_self]
  · have hlt : a % L + 1 < L := by
      have := Nat.mod_lt a h
      omega
    rw [if_neg hcase, Nat.mod_eq_of_lt hlt]

/-- Closed form of the effective cursor: starting inside the repeat window it
walks `[repeat_start, repeat_end)` cyclically. -/
theorem Retrigger.cursorAt_closed (p : RetriggerParameters) (c : Nat)
    (h1 : p.repeat_start ≤ c) (h2 : c < p.repeat_end) (i : Nat) :
    Retrigger.cursorAt p c i
      = p.repeat_start
          + ((c - p.repeat_start + i) % (p.repeat_end - p.repeat_start)) := by
  have hL : 0 < p.repeat_end - p.repeat_start := by omega
  induction i with
  | zero =>
    simp only [Retrigger.cursorAt, Retrigger.wrapIndex]
    rw [if_neg (by omega), Nat.add_zero, Nat.mod_eq_of_lt (by omega)]
    omega
  | succ i ih =>
    simp only [Retrigger.cursorAt, Retrigger.wrapIndex, ih]
    rw [← Nat.add_assoc, succ_mod_cases _ _ hL]
    have hm : (c - p.repeat_start + i) % (p.repeat_end - p.repeat_start)
        < p.repeat_end - p.repeat_start := Nat.mod_lt _ hL
    by_cases hcase :
        (c - p.repeat_start + i) % (p.repeat_end - p.repeat_start) + 1
          = p.repeat_end - p.repeat_start
    · rw [if_pos (by omega), if_pos hcase]
      omega
    · rw [if_neg (by omega), if_neg hcase]
      omega

/-- The retrigger loop renders exactly two samples per frame. -/
theorem Retrigger.processFrames_length (samples : List ℚ)
    (p : RetriggerParameters) :
    ∀ n dryIdx c, (Retrigger.processFrames samples p dryIdx c n).1.length = 2 * n := by
  intro n
  induction n with
  | zero => intro dryIdx c; rfl
  | succ n ih =>
    intro dryIdx c
    simp only [Retrigger.processFrames, List.length_cons, ih]
    omega

/-- Value of each sample rendered by the retrigger loop, in terms of the
effective cursor `cursorAt` and the dry frame index. -/
theorem Retrigger.processFrames_getD (samples : List ℚ) (p : RetriggerParameters) :
    ∀ n dryIdx c j, j < n →
      ((Retrigger.processFrames samples p dryIdx c n).1.getD (2 * j) 0
        = (if Retrigger.cursorAt p c j * 2 ≥ samples.length then 0
           else p.fade_factor (Retrigger.cursorAt p c j) * p.mix_factor
                  * samples.getD (Retrigger.cursorAt p c j * 2) 0)
          + (if (dryIdx + j) * 2 ≥ samples.length then 0
             else (1 - p.mix_factor) * samples.getD ((dryIdx + j) * 2) 0))
      ∧ ((Retrigger.processFrames samples p dryIdx c n).1.getD (2 * j + 1) 0
        = (if Retrigger.cursorAt p c j * 2 ≥ samples.length then 0
           else p.fade_factor (Retrigger.cursorAt p c j) * p.mix_factor
                  * samples.getD (Retrigger.cursorAt p c j * 2 + 1) 0)
          + (if (dryIdx + j) * 2 ≥ samples.length then 0
             else (1 - p.mix_factor) * samples.getD ((dryIdx + j) * 2 + 1) 0)) := by
  intro n
  induction n with
  | zero => intro dryIdx c j hj; omega
  | succ n ih =>
    intro dryIdx c j hj
    cases j with
    | zero =>
      simp only [Retrigger.processFrames, Retrigger.cursorAt, Nat.mul_zero,
        Nat.add_zero, List.getD_cons_zero, Nat.zero_add, List.getD_cons_succ]
      constructor <;> · split_ifs <;> ring
    | succ j =>
      have e1 : 2 * (j + 1) = (2 * j + 1) + 1 := by ring
      have e3 : dryIdx + (j + 1) = (dryIdx + 1) + j := by ring
      rw [e1, e3, Retrigger.cursorAt_succ]
      simp only [Retrigger.processFrames, List.getD_cons_succ]
      exact ih (dryIdx + 1) (Retrigger.wrapIndex p c + 1) j (by omega)

/-- The cursor stored after rendering `n + 1` frames is the effective cursor
of the last frame, incremented (and not yet wrapped). -/
theorem Retrigger.processFrames_cursor (samples : List ℚ)
    (p : RetriggerParameters) :
    ∀ n dryIdx c,
      (Retrigger.processFrames samples p dryIdx c (n + 1)).2
        = Retrigger.cursorAt p c n + 1 := by
  intro n
  induction n with
  | zero => intro dryIdx c; rfl
  | succ n ih =>
    intro dryIdx c
    rw [Retrigger.cursorAt_succ]
    exact ih (dryIdx + 1) (Retrigger.wrapIndex p c + 1)

/-- The active-case contract of claim C1: `process` preserves the buffer
length and writes each of the `buffer.len() / 2` output frames as
`wet + dry`, where `wet` is `fade(cursor) * mix_factor` times the cursor-th
sample-store frame (both channels zero once the cursor is past the store's
end) and `dry` is `(1 - mix_factor)` times the `(track_index + i)`-th frame
(both channels zero once that is past the store's end). -/
def retriggerActiveSpec (samples : List ℚ) (p : RetriggerParameters)
    (c track_index : Nat) (buffer : List ℚ) : Prop :=
  (Retrigger.process ⟨samples, some p, some c⟩ track_index buffer).1.length
      = buffer.length
  ∧ ∀ i, i < buffer.length / 2 →
      ((Retrigger.process ⟨samples, some p, some c⟩ track_index buffer).1.getD (2 * i) 0
        = (if Retrigger.cursorAt p c i * 2 ≥ samples.length then 0
           else p.fade_factor (Retrigger.cursorAt p c i) * p.mix_factor
                  * samples.getD (Retrigger.cursorAt p c i * 2) 0)
          + (if (track_index + i) * 2 ≥ samples.length then 0
             else (1 - p.mix_factor) * samples.getD ((track_index + i) * 2) 0))
      ∧ ((Retrigger.process ⟨samples, some p, some c⟩ track_index buffer).1.getD (2 * i + 1) 0
        = (if Retrigger.cursorAt p c i * 2 ≥ samples.length then 0
           else p.fade_factor (Retrigger.cursorAt p c i) * p.mix_factor
                  * samples.getD (Retrigger.cursorAt p c i * 2 + 1) 0)
          + (if (track_index + i) * 2 ≥ samples.length then 0
             else (1 - p.mix_factor) * samples.getD ((track_index + i) * 2 + 1) 0))

/-- The inactive-case contract of claim C1: with parameters or cursor absent,
`Retrigger::process` changes neither the buffer nor the state. -/
def retriggerInactiveNoop (track_index : Nat) (buffer : List ℚ) : Prop :=
  ∀ rt : Retrigger, rt.parameters = none ∨ rt.index = none →
    rt.process track_index buffer = (buffer, rt)

/-- C1: for every active Retrigger (parameters and cursor present), every
track index and every even-length buffer, `process` overwrites each of the
`buffer.len() / 2` output frames with `wet + dry` as specified (cursor-th
store frame faded and scaled by `mix_factor`, plus the dry track scaled by
`1 - mix_factor`, zeros past the store's end); while inactive, `process` is a
no-op. -/
theorem retrigger_process_contract (samples : List ℚ) (p : RetriggerParameters)
    (c track_index : Nat) (buffer : List ℚ) (hbuf : buffer.length % 2 = 0) :
    retriggerActiveSpec samples p c track_index buffer
      ∧ retriggerInactiveNoop track_index buffer := by
  constructor
  · unfold retriggerActiveSpec
    simp only [Retrigger.process]
    constructor
    · rw [List.length_append, Retrigger.processFrames_length, List.length_drop]
      omega
    · intro i hi
      have hlen := Retrigger.processFrames_length samples p (buffer.length / 2)
        track_index c
      constructor
      · rw [getD_append_eq _ _ _ _ (by omega)]
        exact (Retrigger.processFrames_getD samples p (buffer.length / 2)
          track_index c i hi).1
      · rw [getD_append_eq _ _ _ _ (by omega)]
        exact (Retrigger.processFrames_getD samples p (buffer.length / 2)
          track_index c i hi).2
  · intro rt h
    rcases rt with ⟨s, ps, is⟩
    rcases ps with _ | p'
    · rfl
    · rcases is with _ | i'
      · rfl
      · rcases h with h | h <;> simp at h

/-- Witness for C1 at a concrete input: one stereo frame in the store, a
two-frame repeat window, half mix. -/
theorem retrigger_process_contract_witness :
    ([(9 : ℚ), 9].length % 2 = 0)
    ∧ (retriggerActiveSpec [3, 4] ⟨0, 2, 1, 1/2⟩ 0 0 [9, 9]
       ∧ retriggerInactiveNoop 0 [(9 : ℚ), 9]) :=
  ⟨by norm_num, retrigger_process_contract [3, 4] ⟨0, 2, 1, 1/2⟩ 0 0 [9, 9] (by norm_num)⟩

/-- Counterexample to C7 as stated: a one-frame repeat window starting at 0,
rendering one frame from cursor 0.  The claimed formula gives
`repeat_start + ((0 - 0 + 1) mod 1) = 0`, but the stored cursor is `1`
(`= repeat_end`): the loop increments after the last frame and only wraps at
the top of the next iteration. -/
theorem retrigger_cursor_formula_fails :
    (Retrigger.process ⟨[], some ⟨0, 1, 0, 1⟩, some 0⟩ 0 [0, 0]).2.index
      ≠ some (0 + ((0 - 0 + [(0 : ℚ), 0].length / 2) % (1 - 0))) := by
  norm_num [Retrigger.process, Retrigger.processFrames, Retrigger.wrapIndex]

/-- C7 (amended): for an active Retrigger with cursor in
`[repeat_start, repeat_end)`, after rendering `n = buffer.len() / 2 ≥ 1`
frames the stored cursor is
`repeat_start + ((c - repeat_start + (n - 1)) mod (repeat_end - repeat_start)) + 1`,
i.e. the claimed value except that a residue of `0` is stored as
`repeat_end` rather than `repeat_start` (the wrap happens at the top of the
next frame). -/
theorem retrigger_cursor_after_process (samples : List ℚ)
    (p : RetriggerParameters) (c track_index : Nat) (buffer : List ℚ)
    (h1 : p.repeat_start ≤ c) (h2 : c < p.repeat_end)
    (hn : 0 < buffer.length / 2) :
    (Retrigger.process ⟨samples, some p, some c⟩ track_index buffer).2.index
      = some (p.repeat_start
          + ((c - p.repeat_start + (buffer.length / 2 - 1))
              % (p.repeat_end - p.repeat_start)) + 1) := by
  obtain ⟨m, hm⟩ : ∃ m, buffer.length / 2 = m + 1 :=
    ⟨buffer.length / 2 - 1, by omega⟩
  simp only [Retrigger.process, hm, Nat.add_sub_cancel]
  rw [Retrigger.processFrames_cursor, Retrigger.cursorAt_closed p c h1 h2 m]

/-- Witness for the amended C7: a two-frame window rendered for three frames
stores cursor `0 + ((0 + 2) mod 2) + 1 = 1`. -/
theorem retrigger_cursor_after_process_witness :
    ((⟨0, 2, 1, 1⟩ : RetriggerParameters).repeat_start ≤ 0
      ∧ 0 < (⟨0, 2, 1, 1⟩ : RetriggerParameters).repeat_end
      ∧ 0 < [(0 : ℚ), 0, 0, 0, 0, 0].length / 2)
    ∧ (Retrigger.process ⟨[], some ⟨0, 2, 1, 1⟩, some 0⟩ 0 [0, 0, 0, 0, 0, 0]).2.index
        = some ((⟨0, 2, 1, 1⟩ : RetriggerParameters).repeat_start
            + ((0 - (⟨0, 2, 1, 1⟩ : RetriggerParameters).repeat_start
                  + ([(0 : ℚ), 0, 0, 0, 0, 0].length / 2 - 1))
                % ((⟨0, 2, 1, 1⟩ : RetriggerParameters).repeat_end
                    - (⟨0, 2, 1, 1⟩ : RetriggerParameters).repeat_start)) + 1) :=
  ⟨⟨by norm_num, by norm_num, by norm_num⟩,
    retrigger_cursor_after_process [] ⟨0, 2, 1, 1⟩ 0 0 [0, 0, 0, 0, 0, 0]
      (by norm_num) (by norm_num) (by norm_num)⟩

/-- Counterexample to C6 as stated: a duration of `9/441000` seconds gives
`repeat_duration * 44100 = 0.9`, which the claim rounds and clamps to one
frame (`repeat_end > repeat_start`, `fade_threshold ≥ 1`); the source
truncates with no clamp, so `repeat_end = repeat_start` and
`fade_threshold = 0`.  A duration of `19/441000` seconds (1.9 frames)
likewise truncates to 1 frame where the claim's `round` gives 2. -/
theorem retrigger_parameters_no_clamp :
    (RetriggerParameters.new 0 (9/441000) 1).repeat_end
        = (RetriggerParameters.new 0 (9/441000) 1).repeat_start
    ∧ (RetriggerParameters.new 0 (9/441000) 1).fade_threshold = 0
    ∧ (RetriggerParameters.new 0 (19/441000) 1).repeat_end = 1 := by
  norm_num [RetriggerParameters.new]

/-- C6 (amended): `repeat_samples` is `repeat_duration * 44100` truncated
toward zero with no lower clamp, so `repeat_end = repeat_start +
⌊repeat_duration * 44100⌋.toNat`; whenever the duration is at least one
frame, `repeat_end > repeat_start`; `fade_threshold` is at most a quarter of
the window; and `mix_factor` is clamped into `[0, 1]`. -/
theorem retrigger_parameters_trunc (repeat_start : Nat)
    (repeat_duration mix_factor : ℚ) :
    (RetriggerParameters.new repeat_start repeat_duration mix_factor).repeat_end
        = repeat_start + (⌊repeat_duration * 44100⌋).toNat
    ∧ ((1 : ℚ) ≤ repeat_duration * 44100 →
        repeat_start
          < (RetriggerParameters.new repeat_start repeat_duration mix_factor).repeat_end)
    ∧ 4 * (RetriggerParameters.new repeat_start repeat_duration mix_factor).fade_threshold
        ≤ (RetriggerParameters.new repeat_start repeat_duration mix_factor).repeat_end
            - repeat_start
    ∧ 0 ≤ (RetriggerParameters.new repeat_start repeat_duration mix_factor).mix_factor
    ∧ (RetriggerParameters.new repeat_start repeat_duration mix_factor).mix_factor ≤ 1 := by
  refine ⟨rfl, ?_, ?_, ?_, ?_⟩
  · intro h
    have h1 : (1 : ℤ) ≤ ⌊repeat_duration * 44100⌋ := Int.le_floor.mpr (by exact_mod_cast h)
    simp only [RetriggerParameters.new]
    omega
  · simp only [RetriggerParameters.new]
    have := Nat.min_le_left ((⌊repeat_duration * 44100⌋).toNat / 4) 441
    omega
  · simp only [RetriggerParameters.new]
    exact le_min (le_max_right _ _) zero_le_one
  · simp only [RetriggerParameters.new]
    exact min_le_right _ _

/-- Witness for the amended C6: a one-second duration is at least one frame,
so the window is nonempty. -/
theorem retrigger_parameters_trunc_witness :
    ((1 : ℚ) ≤ 1 * 44100) ∧ 0 < (RetriggerParameters.new 0 1 2).repeat_end :=
  ⟨by norm_num, (retrigger_parameters_trunc 0 1 2).2.1 (by norm_num)⟩

/-- C9: with `fade_threshold ≥ 1` and `2 * fade_threshold ≤ repeat_end -
repeat_start`, the retrigger fade factor is non-decreasing on
`[repeat_start, repeat_start + fade_threshold)`, equals 1 on
`[repeat_start + fade_threshold, repeat_end - fade_threshold]`, and is
non-increasing on `(repeat_end - fade_threshold, repeat_end)`. -/
theorem retrigger_fade_factor_shape (p : RetriggerParameters)
    (hf : 1 ≤ p.fade_threshold)
    (hw : 2 * p.fade_threshold ≤ p.repeat_end - p.repeat_start) :
    (∀ i j, p.repeat_start ≤ i → i ≤ j → j < p.repeat_start + p.fade_threshold →
        p.fade_factor i ≤ p.fade_factor j)
    ∧ (∀ i, p.repeat_start + p.fade_threshold ≤ i →
        i ≤ p.repeat_end - p.fade_threshold → p.fade_factor i = 1)
    ∧ (∀ i j, p.repeat_end - p.fade_threshold < i → i ≤ j → j < p.repeat_end →
        p.fade_factor j ≤ p.fade_factor i) := by
  have hre : p.repeat_start + 2 * p.fade_threshold ≤ p.repeat_end := by omega
  have hc : (0 : ℚ) < (p.fade_threshold : ℚ) := by
    exact_mod_cast (by omega : 0 < p.fade_threshold)
  refine ⟨?_, ?_, ?_⟩
  · intro i j hi hij hj
    simp only [RetriggerParameters.fade_factor]
    rw [if_pos (show i < p.repeat_start + p.fade_threshold by omega),
      if_pos (show j < p.repeat_start + p.fade_threshold by omega)]
    exact (div_le_div_iff_of_pos_right hc).mpr (by exact_mod_cast (by omega :
      p.fade_threshold - (p.repeat_start + p.fade_threshold - i) + 1
        ≤ p.fade_threshold - (p.repeat_start + p.fade_threshold - j) + 1))
  · intro i hi1 hi2
    simp only [RetriggerParameters.fade_factor]
    rw [if_neg (by omega), if_neg (show ¬ i > p.repeat_end - p.fade_threshold by omega)]
  · intro i j hi hij hj
    simp only [RetriggerParameters.fade_factor]
    rw [if_neg (show ¬ j < p.repeat_start + p.fade_threshold by omega),
      if_pos (show j > p.repeat_end - p.fade_threshold by omega),
      if_neg (show ¬ i < p.repeat_start + p.fade_threshold by omega),
      if_pos (show i > p.repeat_end - p.fade_threshold by omega)]
    exact (div_le_div_iff_of_pos_right hc).mpr (by exact_mod_cast (by omega :
      p.fade_threshold - (j - (p.repeat_end - p.fade_threshold)) + 1
        ≤ p.fade_threshold - (i - (p.repeat_end - p.fade_threshold)) + 1))

/-- Witness for C9 at a four-frame window with a one-frame fade. -/
theorem retrigger_fade_factor_shape_witness :
    (1 ≤ (⟨0, 4, 1, 1⟩ : RetriggerParameters).fade_threshold
      ∧ 2 * (⟨0, 4, 1, 1⟩ : RetriggerParameters).fade_threshold
          ≤ (⟨0, 4, 1, 1⟩ : RetriggerParameters).repeat_end
              - (⟨0, 4, 1, 1⟩ : RetriggerParameters).repeat_start)
    ∧ ((∀ i j, (⟨0, 4, 1, 1⟩ : RetriggerParameters).repeat_start ≤ i → i ≤ j →
          j < (⟨0, 4, 1, 1⟩ : RetriggerParameters).repeat_start
              + (⟨0, 4, 1, 1⟩ : RetriggerParameters).fade_threshold →
          (⟨0, 4, 1, 1⟩ : RetriggerParameters).fade_factor i
            ≤ (⟨0, 4, 1, 1⟩ : RetriggerParameters).fade_factor j)
      ∧ (∀ i, (⟨0, 4, 1, 1⟩ : RetriggerParameters).repeat_start
              + (⟨0, 4, 1, 1⟩ : RetriggerParameters).fade_threshold ≤ i →
          i ≤ (⟨0, 4, 1, 1⟩ : RetriggerParameters).repeat_end
              - (⟨0, 4, 1, 1⟩ : RetriggerParameters).fade_threshold →
          (⟨0, 4, 1, 1⟩ : RetriggerParameters).fade_factor i = 1)
      ∧ (∀ i j, (⟨0, 4, 1, 1⟩ : RetriggerParameters).repeat_end
              - (⟨0, 4, 1, 1⟩ : RetriggerParameters).fade_threshold < i → i ≤ j →
          j < (⟨0, 4, 1, 1⟩ : RetriggerParameters).repeat_end →
          (⟨0, 4, 1, 1⟩ : RetriggerParameters).fade_factor j
            ≤ (⟨0, 4, 1, 1⟩ : RetriggerParameters).fade_factor i)) :=
  ⟨⟨by norm_num, by norm_num⟩,
    retrigger_fade_factor_shape ⟨0, 4, 1, 1⟩ (by norm_num) (by norm_num)⟩

/-- Unfolding the effective gate state one step: the state sequence starting
at `(c, s)` is, after its first frame, the sequence starting at the wrapped
state with its index incremented. -/
theorem TranceGate.stateAt_succ (p : TranceGateParameters) (c : Nat) (s : Bool)
    (i : Nat) :
    TranceGate.stateAt p c s (i + 1)
      = TranceGate.stateAt p ((TranceGate.wrapState p c s).1 + 1)
          (TranceGate.wrapState p c s).2 i := by
  induction i with
  | zero => rfl
  | succ i ih =>
    show TranceGate.wrapState p ((TranceGate.stateAt p c s (i + 1)).1 + 1)
        (TranceGate.stateAt p c s (i + 1)).2 = _
    rw [ih]
    rfl

/-- The trance gate loop renders exactly two samples per frame. -/
theorem TranceGate.gateProcessFrames_length (samples : List ℚ)
    (p : TranceGateParameters) :
    ∀ n dryIdx c s buffer,
      (TranceGate.processFrames samples p dryIdx c s n buffer).1.length = 2 * n := by
  intro n
  induction n with
  | zero => intro dryIdx c s buffer; rfl
  | succ n ih =>
    intro dryIdx c s buffer
    simp only [TranceGate.processFrames, List.length_cons, ih]
    omega

/-- Value of each sample produced by the trance gate loop, in terms of the
effective `(index, silent)` state `stateAt`: a silent frame is replaced by
the dry signal alone, an open frame is the already-written sample times
`fade_factor(index) * mix_factor` plus the dry signal. -/
theorem TranceGate.gateProcessFrames_getD (samples : List ℚ) (p : TranceGateParameters) :
    ∀ n dryIdx c s buffer j, j < n →
      ((TranceGate.processFrames samples p dryIdx c s n buffer).1.getD (2 * j) 0
        = (if (TranceGate.stateAt p c s j).2 then
             (if (dryIdx + j) * 2 ≥ samples.length then 0
              else samples.getD ((dryIdx + j) * 2) 0 * (1 - p.mix_factor))
           else
             buffer.getD (2 * j) 0
                 * p.fade_factor (TranceGate.stateAt p c s j).1 * p.mix_factor
               + (if (dryIdx + j) * 2 ≥ samples.length then 0
                  else samples.getD ((dryIdx + j) * 2) 0 * (1 - p.mix_factor))))
      ∧ ((TranceGate.processFrames samples p dryIdx c s n buffer).1.getD (2 * j + 1) 0
        = (if (TranceGate.stateAt p c s j).2 then
             (if (dryIdx + j) * 2 ≥ samples.length then 0
              else samples.getD ((dryIdx + j) * 2 + 1) 0 * (1 - p.mix_factor))
           else
             buffer.getD (2 * j + 1) 0
                 * p.fade_factor (TranceGate.stateAt p c s j).1 * p.mix_factor
               + (if (dryIdx + j) * 2 ≥ samples.length then 0
                  else samples.getD ((dryIdx + j) * 2 + 1) 0 * (1 - p.mix_factor)))) := by
  intro n
  induction n with
  | zero => intro dryIdx c s buffer j hj; omega
  | succ n ih =>
    intro dryIdx c s buffer j hj
    cases j with
    | zero =>
      simp only [TranceGate.processFrames, TranceGate.stateAt, Nat.mul_zero,
        Nat.add_zero, List.getD_cons_zero, Nat.zero_add, List.getD_cons_succ]
      constructor <;> · split_ifs <;> rfl
    | succ j =>
      have hj' : j < n := by omega
      have e1 : 2 * (j + 1) = (2 * j + 1) + 1 := by ring
      have e3 : dryIdx + (j + 1) = (dryIdx + 1) + j := by ring
      rw [e1, e3, TranceGate.stateAt_succ]
      simp only [TranceGate.processFrames, List.getD_cons_succ]
      have IH := ih (dryIdx + 1) ((TranceGate.wrapState p c s).1 + 1)
        (TranceGate.wrapState p c s).2 (buffer.drop 2) j hj'
      rw [getD_drop_eq, getD_drop_eq] at IH
      have e5 : 2 + 2 * j = 2 * j + 1 + 1 := by ring
      have e6 : 2 + (2 * j + 1) = 2 * j + 1 + 1 + 1 := by ring
      rw [e5, e6] at IH
      exact IH

/-- The active-case behaviour of `TranceGate::process` (the amended claim
C2): each output frame is the dry track alone while the gate is silent, and
the already-written buffer frame scaled by `fade_factor(index) * mix_factor`
plus the dry track while the gate is open; the `silent` flag toggles each
time the index wraps from `gate_end` back to `gate_start`. -/
def tranceGateActiveSpec (samples : List ℚ) (p : TranceGateParameters)
    (c : Nat) (s : Bool) (track_index : Nat) (buffer : List ℚ) : Prop :=
  (TranceGate.process ⟨samples, some p, some c, s⟩ track_index buffer).1.length
      = buffer.length
  ∧ ∀ i, i < buffer.length / 2 →
      ((TranceGate.process ⟨samples, some p, some c, s⟩ track_index buffer).1.getD (2 * i) 0
        = (if (TranceGate.stateAt p c s i).2 then
             (if (track_index + i) * 2 ≥ samples.length then 0
              else samples.getD ((track_index + i) * 2) 0 * (1 - p.mix_factor))
           else
             buffer.getD (2 * i) 0
                 * p.fade_factor (TranceGate.stateAt p c s i).1 * p.mix_factor
               + (if (track_index + i) * 2 ≥ samples.length then 0
                  else samples.getD ((track_index + i) * 2) 0 * (1 - p.mix_factor))))
      ∧ ((TranceGate.process ⟨samples, some p, some c, s⟩ track_index buffer).1.getD (2 * i + 1) 0
        = (if (TranceGate.stateAt p c s i).2 then
             (if (track_index + i) * 2 ≥ samples.length then 0
              else samples.getD ((track_index + i) * 2 + 1) 0 * (1 - p.mix_factor))
           else
             buffer.getD (2 * i + 1) 0
                 * p.fade_factor (TranceGate.stateAt p c s i).1 * p.mix_factor
               + (if (track_index + i) * 2 ≥ samples.length then 0
                  else samples.getD ((track_index + i) * 2 + 1) 0 * (1 - p.mix_factor))))

/-- The inactive-case contract of claim C2: with parameters or index absent,
`TranceGate::process` changes neither the buffer nor the state. -/
def tranceGateInactiveNoop (track_index : Nat) (buffer : List ℚ) : Prop :=
  ∀ tg : TranceGate, tg.parameters = none ∨ tg.index = none →
    tg.process track_index buffer = (buffer, tg)

/-- Counterexample to C2 as stated: gate window `[0, 4)` (so `gate_length =
4`, `gate_midpoint = 2`, `fade_threshold = 2` as the constructor derives for
a four-frame gate), `mix_factor = 1`, counter 0, empty sample store, buffer
frame `(1, 1)`.  The claimed triangular envelope gives factor
`t(0) = 1 → g = 1`, so the claim requires output `1`; the source's process
writes `buffer * fade_factor(0) * mix = 1/2`. -/
theorem trance_gate_not_triangular :
    ((TranceGate.process ⟨[], some ⟨0, 4, 2, 1⟩, some 0, false⟩ 0 [1, 1]).1.getD 0 0
        = 1/2)
    ∧ tranceGateClaimFactor 4 0 1 * 1 = 1
    ∧ ¬ ((1 : ℚ)/2 = 1) := by
  refine ⟨?_, ?_, by norm_num⟩
  · norm_num [TranceGate.process, TranceGate.processFrames, TranceGate.wrapState,
      TranceGateParameters.fade_factor, List.getD]
  · norm_num [tranceGateClaimFactor]

/-- C2 (amended): for every active TranceGate and even-length buffer,
`process` rewrites each of the `buffer.len() / 2` frames: while the gate is
silent the frame becomes the dry track scaled by `1 - mix_factor` (zeros
past the store's end), and while open the already-written frame is scaled by
`fade_factor(index) * mix_factor` and the dry part is added; `silent`
toggles at each wrap of the index from `gate_end` to `gate_start`.  While
inactive, `process` is a no-op. -/
theorem trance_gate_process_contract (samples : List ℚ)
    (p : TranceGateParameters) (c : Nat) (s : Bool) (track_index : Nat)
    (buffer : List ℚ) (hbuf : buffer.length % 2 = 0) :
    tranceGateActiveSpec samples p c s track_index buffer
      ∧ tranceGateInactiveNoop track_index buffer := by
  constructor
  · unfold tranceGateActiveSpec
    simp only [TranceGate.process]
    constructor
    · rw [List.length_append, TranceGate.gateProcessFrames_length, List.length_drop]
      omega
    · intro i hi
      have hlen := TranceGate.gateProcessFrames_length samples p (buffer.length / 2)
        track_index c s buffer
      constructor
      · rw [getD_append_eq _ _ _ _ (by omega)]
        exact (TranceGate.gateProcessFrames_getD samples p (buffer.length / 2)
          track_index c s buffer i hi).1
      · rw [getD_append_eq _ _ _ _ (by omega)]
        exact (TranceGate.gateProcessFrames_getD samples p (buffer.length / 2)
          track_index c s buffer i hi).2
  · intro tg h
    rcases tg with ⟨sm, ps, is, sl⟩
    rcases ps with _ | p'
    · rfl
    · rcases is with _ | i'
      · rfl
      · rcases h with h | h <;> simp at h

/-- Witness for the amended C2 at a concrete input: one stereo frame in the
store, a two-frame gate, half mix, open gate. -/
theorem trance_gate_process_contract_witness :
    ([(8 : ℚ), 6].length % 2 = 0)
    ∧ (tranceGateActiveSpec [3, 4] ⟨0, 2, 1, 1/2⟩ 0 false 0 [8, 6]
       ∧ tranceGateInactiveNoop 0 [(8 : ℚ), 6]) :=
  ⟨by norm_num,
    trance_gate_process_contract [3, 4] ⟨0, 2, 1, 1/2⟩ 0 false 0 [8, 6] (by norm_num)⟩

/-- Counterexample to C8 as stated: gate window `[0, 44)` with
`fade_threshold = 11` and `mix_factor = 1`, open gate at index 0, buffer
frame `(1, 1)`, empty store (so the dry part is zero).  The factor actually
applied to the already-written sample is `fade_factor(0) * 1 = 1/11`, and
the output sample is `1/11 < 0.1`, outside the claimed range `[0.1, 1.0]`. -/
theorem trance_gate_factor_below_floor :
    ((TranceGate.process ⟨[], some ⟨0, 44, 11, 1⟩, some 0, false⟩ 0 [1, 1]).1.getD 0 0
        = 1/11)
    ∧ ¬ ((1 : ℚ)/10 ≤ 1/11) := by
  constructor
  · norm_num [TranceGate.process, TranceGate.processFrames, TranceGate.wrapState,
      TranceGateParameters.fade_factor, List.getD]
  · norm_num

/-- C8 (amended): in the open (non-silent) phase the multiplier applied to
the already-written frame is `fade_factor(index) * mix_factor`; for
`fade_threshold ≥ 1`, `2 * fade_threshold ≤ gate_end - gate_start`,
`gate_start ≤ index < gate_end` and `mix_factor ∈ (0, 1]` it lies in
`(0, 1]` (it can be as small as `mix_factor / fade_threshold`, below 0.1),
and on the plateau `[gate_start + fade_threshold, gate_end -
fade_threshold]` it equals `mix_factor` exactly (hence 1.0 only when
`mix_factor = 1`). -/
theorem trance_gate_open_factor_bounds (p : TranceGateParameters) (idx : Nat)
    (hf : 1 ≤ p.fade_threshold)
    (hw : 2 * p.fade_threshold ≤ p.gate_end - p.gate_start)
    (h3 : p.gate_start ≤ idx) (h4 : idx < p.gate_end)
    (h5 : 0 < p.mix_factor) (h6 : p.mix_factor ≤ 1) :
    (0 < p.fade_factor idx * p.mix_factor
      ∧ p.fade_factor idx * p.mix_factor ≤ 1)
    ∧ (p.gate_start + p.fade_threshold ≤ idx →
        idx ≤ p.gate_end - p.fade_threshold →
        p.fade_factor idx * p.mix_factor = p.mix_factor) := by
  have hre : p.gate_start + 2 * p.fade_threshold ≤ p.gate_end := by omega
  have hc : (0 : ℚ) < (p.fade_threshold : ℚ) := by
    exact_mod_cast (by omega : 0 < p.fade_threshold)
  have hmain : 0 < p.fade_factor idx ∧ p.fade_factor idx ≤ 1 := by
    simp only [TranceGateParameters.fade_factor]
    by_cases hA : idx < p.gate_start + p.fade_threshold
    · rw [if_pos hA]
      refine ⟨div_pos ?_ hc, ?_⟩
      · exact_mod_cast (by omega :
          0 < p.fade_threshold - (p.gate_start + p.fade_threshold - idx) + 1)
      · rw [div_le_one hc]
        exact_mod_cast (by omega :
          p.fade_threshold - (p.gate_start + p.fade_threshold - idx) + 1
            ≤ p.fade_threshold)
    · rw [if_neg hA]
      by_cases hB : idx > p.gate_end - p.fade_threshold
      · rw [if_pos hB]
        refine ⟨div_pos ?_ hc, ?_⟩
        · exact_mod_cast (by omega :
            0 < p.fade_threshold - (idx - (p.gate_end - p.fade_threshold)) + 1)
        · rw [div_le_one hc]
          exact_mod_cast (by omega :
            p.fade_threshold - (idx - (p.gate_end - p.fade_threshold)) + 1
              ≤ p.fade_threshold)
      · rw [if_neg hB]
        exact ⟨one_pos, le_refl 1⟩
  refine ⟨⟨mul_pos hmain.1 h5, ?_⟩, ?_⟩
  · calc p.fade_factor idx * p.mix_factor ≤ 1 * 1 :=
        mul_le_mul hmain.2 h6 h5.le zero_le_one
      _ = 1 := by norm_num
  · intro hp1 hp2
    have hone : p.fade_factor idx = 1 := by
      simp only [TranceGateParameters.fade_factor]
      rw [if_neg (by omega), if_neg (show ¬ idx > p.gate_end - p.fade_threshold by omega)]
    rw [hone, one_mul]

/-- Witness for the amended C8 on the plateau of a four-frame gate. -/
theorem trance_gate_open_factor_bounds_witness :
    (1 ≤ (⟨0, 4, 1, 1/2⟩ : TranceGateParameters).fade_threshold
      ∧ 2 * (⟨0, 4, 1, 1/2⟩ : TranceGateParameters).fade_threshold
          ≤ (⟨0, 4, 1, 1/2⟩ : TranceGateParameters).gate_end
              - (⟨0, 4, 1, 1/2⟩ : TranceGateParameters).gate_start
      ∧ (⟨0, 4, 1, 1/2⟩ : TranceGateParameters).gate_start ≤ 2
      ∧ 2 < (⟨0, 4, 1, 1/2⟩ : TranceGateParameters).gate_end
      ∧ 0 < (⟨0, 4, 1, 1/2⟩ : TranceGateParameters).mix_factor
      ∧ (⟨0, 4, 1, 1/2⟩ : TranceGateParameters).mix_factor ≤ 1)
    ∧ ((0 < (⟨0, 4, 1, 1/2⟩ : TranceGateParameters).fade_factor 2
          * (⟨0, 4, 1, 1/2⟩ : TranceGateParameters).mix_factor
        ∧ (⟨0, 4, 1, 1/2⟩ : TranceGateParameters).fade_factor 2
          * (⟨0, 4, 1, 1/2⟩ : TranceGateParameters).mix_factor ≤ 1)
      ∧ ((⟨0, 4, 1, 1/2⟩ : TranceGateParameters).gate_start
            + (⟨0, 4, 1, 1/2⟩ : TranceGateParameters).fade_threshold ≤ 2 →
          2 ≤ (⟨0, 4, 1, 1/2⟩ : TranceGateParameters).gate_end
            - (⟨0, 4, 1, 1/2⟩ : TranceGateParameters).fade_threshold →
          (⟨0, 4, 1, 1/2⟩ : TranceGateParameters).fade_factor 2
            * (⟨0, 4, 1, 1/2⟩ : TranceGateParameters).mix_factor
          = (⟨0, 4, 1, 1/2⟩ : TranceGateParameters).mix_factor)) :=
  ⟨⟨by norm_num, by norm_num, by norm_num, by norm_num, by norm_num, by norm_num⟩,
    trance_gate_open_factor_bounds ⟨0, 4, 1, 1/2⟩ 2 (by norm_num) (by norm_num)
      (by norm_num) (by norm_num) (by norm_num) (by norm_num)⟩

/-- No message of the drain loop touches the playhead. -/
theorem Engine.applyMessage_index (e : Engine) (m : MessageIntoEngine) :
    (Engine.applyMessage e m).index = e.index := by
  cases m <;> rfl

/-- Draining any message sequence leaves the playhead unchanged. -/
theorem Engine.drain_index (msgs : List MessageIntoEngine) :
    ∀ e : Engine, (Engine.drain e msgs).index = e.index := by
  induction msgs with
  | nil => intro e; rfl
  | cons m ms ih =>
    intro e
    show (Engine.drain (Engine.applyMessage e m) ms).index = e.index
    rw [ih, Engine.applyMessage_index]

/-- `quiet` produces an all-zero buffer of the same length. -/
theorem quiet_eq_replicate : ∀ buffer : List ℚ,
    quiet buffer = List.replicate buffer.length 0
  | [] => rfl
  | a :: t => by
    show (0 : ℚ) :: quiet t = List.replicate (t.length + 1) 0
    rw [List.replicate_succ, quiet_eq_replicate t]

/-- With no parameters stored, the retrigger's `process` returns early. -/
theorem Retrigger.process_inactive_params (rt : Retrigger)
    (h : rt.parameters = none) (track_index : Nat) (buffer : List ℚ) :
    rt.process track_index buffer = (buffer, rt) := by
  rcases rt with ⟨s, ps, is⟩
  simp only at h
  subst h
  rfl

/-- With no parameters stored, the trance gate's `process` returns early. -/
theorem TranceGate.gateProcess_inactive_params (tg : TranceGate)
    (h : tg.parameters = none) (track_index : Nat) (buffer : List ℚ) :
    tg.process track_index buffer = (buffer, tg) := by
  rcases tg with ⟨s, ps, is, sl⟩
  simp only at h
  subst h
  rfl

/-- C5: whenever the drained state is paused, `process` fills the whole
buffer with zeros and leaves the state exactly as drained — neither effect's
`process` runs, so their cursors and flags are untouched — and draining
never moves the playhead. -/
theorem engine_paused_silence (e : Engine) (msgs : List MessageIntoEngine)
    (buffer : List ℚ) (h : (e.drain msgs).playing = false) :
    Engine.process e msgs buffer = (List.replicate buffer.length 0, e.drain msgs)
    ∧ (e.drain msgs).index = e.index := by
  refine ⟨?_, Engine.drain_index msgs e⟩
  simp only [Engine.process]
  rw [if_pos h, quiet_eq_replicate]

/-- Witness for C5: a fresh engine is paused, so a two-sample buffer comes
back as zeros. -/
theorem engine_paused_silence_witness :
    ((Engine.drain (Engine.new [1, 1]) []).playing = false)
    ∧ ((Engine.process (Engine.new [1, 1]) [] [5, 5]
          = (List.replicate [(5 : ℚ), 5].length 0, Engine.drain (Engine.new [1, 1]) []))
       ∧ (Engine.drain (Engine.new [1, 1]) []).index = (Engine.new [1, 1]).index) :=
  ⟨rfl, engine_paused_silence (Engine.new [1, 1]) [] [5, 5] rfl⟩

/-- The dry-playback loop writes exactly two samples per frame. -/
theorem Engine.dryFrames_length (samples : List ℚ) :
    ∀ n idx, (Engine.dryFrames samples idx n).length = 2 * n := by
  intro n
  induction n with
  | zero => intro idx; rfl
  | succ n ih =>
    intro idx
    simp only [Engine.dryFrames, List.length_cons, ih]
    omega

/-- Value of each sample written by the dry-playback loop. -/
theorem Engine.dryFrames_getD (samples : List ℚ) :
    ∀ n idx j, j < n →
      ((Engine.dryFrames samples idx n).getD (2 * j) 0
        = if (idx + j) * 2 ≥ samples.length then 0
          else samples.getD ((idx + j) * 2) 0)
      ∧ ((Engine.dryFrames samples idx n).getD (2 * j + 1) 0
        = if (idx + j) * 2 ≥ samples.length then 0
          else samples.getD ((idx + j) * 2 + 1) 0) := by
  intro n
  induction n with
  | zero => intro idx j hj; omega
  | succ n ih =>
    intro idx j hj
    cases j with
    | zero =>
      simp only [Engine.dryFrames, Nat.mul_zero, Nat.add_zero, List.getD_cons_zero,
        Nat.zero_add, List.getD_cons_succ]
      constructor <;> · split_ifs <;> rfl
    | succ j =>
      have e1 : 2 * (j + 1) = (2 * j + 1) + 1 := by ring
      have e3 : idx + (j + 1) = (idx + 1) + j := by ring
      rw [e1, e3]
      simp only [Engine.dryFrames, List.getD_cons_succ]
      exact ih (idx + 1) j (by omega)

/-- C4: with the engine playing, both effects inactive, an empty message
queue, an even-length buffer, and an even sample store, `process` copies
`samples[2*playhead ..]` into the buffer, substituting zero at every
position at or past the store's end, and advances the playhead by
`buffer.len() / 2`. -/
theorem engine_dry_playback (e : Engine) (buffer : List ℚ)
    (hplay : e.playing = true)
    (hrt : e.retrigger.parameters = none)
    (htg : e.trance_gate.parameters = none)
    (hbuf : buffer.length % 2 = 0)
    (hsam : e.samples.length % 2 = 0) :
    ((Engine.process e [] buffer).1.length = buffer.length)
    ∧ (∀ j, j < buffer.length →
        (Engine.process e [] buffer).1.getD j 0
          = if 2 * e.index + j ≥ e.samples.length then 0
            else e.samples.getD (2 * e.index + j) 0)
    ∧ (Engine.process e [] buffer).2.index = e.index + buffer.length / 2 := by
  have h2n : 2 * (buffer.length / 2) = buffer.length := by omega
  simp only [Engine.process, Engine.drain, List.foldl_nil]
  rw [if_neg (by simp [hplay]), h2n, List.drop_length, List.append_nil,
    Retrigger.process_inactive_params _ hrt, TranceGate.gateProcess_inactive_params _ htg]
  refine ⟨?_, ?_, rfl⟩
  · rw [Engine.dryFrames_length]
    omega
  · intro j hj
    rcases Nat.even_or_odd j with he | ho
    · obtain ⟨i, rfl⟩ : ∃ i, j = 2 * i := by
        rcases he with ⟨i, hi⟩
        exact ⟨i, by omega⟩
      have harg : (e.index + i) * 2 = 2 * e.index + 2 * i := by ring
      have := (Engine.dryFrames_getD e.samples (buffer.length / 2) e.index i
        (by omega)).1
      rw [harg] at this
      exact this
    · obtain ⟨i, rfl⟩ : ∃ i, j = 2 * i + 1 := by
        rcases ho with ⟨i, hi⟩
        exact ⟨i, by omega⟩
      have harg : (e.index + i) * 2 + 1 = 2 * e.index + (2 * i + 1) := by ring
      have := (Engine.dryFrames_getD e.samples (buffer.length / 2) e.index i
        (by omega)).2
      rw [harg] at this
      rw [this]
      split_ifs with h1 h2
      · rfl
      · exfalso; omega
      · exfalso; omega
      · rfl

/-- Witness for C4: two-frame store of ones, fresh playing engine, and a
six-sample buffer that runs one frame past the store. -/
theorem engine_dry_playback_witness :
    ({ Engine.new [1, 1, 1, 1] with playing := true }.playing = true
      ∧ { Engine.new [1, 1, 1, 1] with playing := true }.retrigger.parameters = none
      ∧ { Engine.new [1, 1, 1, 1] with playing := true }.trance_gate.parameters = none
      ∧ [(0 : ℚ), 0, 0, 0, 0, 0].length % 2 = 0
      ∧ { Engine.new [1, 1, 1, 1] with playing := true }.samples.length % 2 = 0)
    ∧ (((Engine.process { Engine.new [1, 1, 1, 1] with playing := true } []
            [0, 0, 0, 0, 0, 0]).1.length = [(0 : ℚ), 0, 0, 0, 0, 0].length)
      ∧ (∀ j, j < [(0 : ℚ), 0, 0, 0, 0, 0].length →
          (Engine.process { Engine.new [1, 1, 1, 1] with playing := true } []
              [0, 0, 0, 0, 0, 0]).1.getD j 0
            = if 2 * { Engine.new [1, 1, 1, 1] with playing := true }.index + j
                  ≥ { Engine.new [1, 1, 1, 1] with playing := true }.samples.length
              then 0
              else { Engine.new [1, 1, 1, 1] with playing := true }.samples.getD
                (2 * { Engine.new [1, 1, 1, 1] with playing := true }.index + j) 0)
      ∧ (Engine.process { Engine.new [1, 1, 1, 1] with playing := true } []
            [0, 0, 0, 0, 0, 0]).2.index
          = { Engine.new [1, 1, 1, 1] with playing := true }.index
              + [(0 : ℚ), 0, 0, 0, 0, 0].length / 2) :=
  ⟨⟨rfl, rfl, rfl, rfl, rfl⟩,
    engine_dry_playback { Engine.new [1, 1, 1, 1] with playing := true }
      [0, 0, 0, 0, 0, 0] rfl rfl rfl rfl rfl⟩

/-- C10: `Engine::process` is deterministic and its result does not depend
on the previous contents of a host-conforming (even-length) buffer: two runs
from equal states draining equal message sequences into equal-length buffers
write identical buffer contents and end in identical engine states. -/
theorem engine_process_deterministic (e₁ e₂ : Engine)
    (msgs₁ msgs₂ : List MessageIntoEngine) (b₁ b₂ : List ℚ)
    (hstate : e₁ = e₂) (hmsgs : msgs₁ = msgs₂) (hlen : b₁.length = b₂.length)
    (heven : b₁.length % 2 = 0) :
    Engine.process e₁ msgs₁ b₁ = Engine.process e₂ msgs₂ b₂ := by
  subst hstate
  subst hmsgs
  simp only [Engine.process]
  by_cases hp : (e₁.drain msgs₁).playing = false
  · rw [if_pos hp, if_pos hp, quiet_eq_replicate, quiet_eq_replicate, hlen]
  · rw [if_neg hp, if_neg hp]
    have d1 : b₁.drop (2 * (b₁.length / 2)) = [] := by
      rw [(by omega : 2 * (b₁.length / 2) = b₁.length), List.drop_length]
    have d2 : b₂.drop (2 * (b₂.length / 2)) = [] := by
      rw [(by omega : 2 * (b₂.length / 2) = b₂.length), List.drop_length]
    rw [d1, d2, List.append_nil, List.append_nil, hlen]

/-- Witness for C10: the same fresh engine writing into two different
two-sample buffers produces the same output and state. -/
theorem engine_process_deterministic_witness :
    (Engine.new [1, 1] = Engine.new [1, 1]
      ∧ ([] : List MessageIntoEngine) = ([] : List MessageIntoEngine)
      ∧ [(1 : ℚ), 2].length = [(3 : ℚ), 4].length
      ∧ [(1 : ℚ), 2].length % 2 = 0)
    ∧ Engine.process (Engine.new [1, 1]) [] [1, 2]
        = Engine.process (Engine.new [1, 1]) [] [3, 4] :=
  ⟨⟨rfl, rfl, rfl, rfl⟩,
    engine_process_deterministic (Engine.new [1, 1]) (Engine.new [1, 1]) [] []
      [1, 2] [3, 4] rfl rfl rfl rfl⟩

/-- C3 (code defect): the older playback path panics once the start offset
runs past the end of the sample store.  With a four-sample store, pressing
play and letting two four-sample callbacks run, the first succeeds and
advances the offset to 4 = samples.len(); the second reaches the explicit
panic in `SamplesInMemory::copy_from_onto` (modelled as `none`), which its
documentation requires the caller to guard against and the stream callback
in `Closure::new` does not. -/
theorem playback_callback_past_end_fails :
    playbackCallback [1, 1, 1, 1] ⟨0, false⟩ [PlaybackEvent.Play] [0, 0, 0, 0]
        = some ([1, 1, 1, 1], ⟨4, true⟩)
    ∧ playbackCallback [1, 1, 1, 1] ⟨4, true⟩ [] [0, 0, 0, 0] = none := by
  constructor
  · norm_num [playbackCallback, applyPlaybackEvent, copy_from_onto, List.foldl]
  · norm_num [playbackCallback, copy_from_onto, List.foldl]
